import Mathlib

/-!
Shallow embedding of the WebSocket broadcast core
(`src/util/WebSocketServer.cpp`, `src/util/ws_spectrogram.cpp`) and proofs
about the behaviour its specification claims.

Modelling conventions:
* `std::map<K, V>` is an association list with unique keys; `operator[]`
  (which default-inserts a value-initialised entry when the key is absent)
  is `aIndex`, assignment through `operator[]` is `aSet`, `erase` is
  `aErase`.  Only lookup behaviour matters, so insertion position is
  irrelevant.
* `Connection*` pointers are `Option Connection`: `none` is a null pointer
  (the value `std::map<int, Connection*>::operator[]` default-inserts).
  Dereferencing `none` is undefined behaviour and is modelled by the
  surrounding operation returning `Option.none` (a crash).
* machine integer conversions are explicit: `intToSizeT` is the C++
  `int → size_t` conversion (reduction modulo 2^64).
* `strlen` on a message is its UTF-8 byte length (`byteLen`); the
  messages of this program contain no interior NUL bytes.
* the external transport (`lws_write`) is an oracle `Nat → Int` giving the
  return value of the k-th write of a drain.
-/

namespace WS

/-- Lookup in an association list (std::map::find). -/
def aFind? {α β : Type} [DecidableEq α] : List (α × β) → α → Option β
  | [], _ => none
  | (k, v) :: rest, key => if k = key then some v else aFind? rest key

/-- Write through std::map::operator[]: overwrite the entry if the key is
present, insert it otherwise. -/
def aSet {α β : Type} [DecidableEq α] : List (α × β) → α → β → List (α × β)
  | [], key, val => [(key, val)]
  | (k, v) :: rest, key, val =>
      if k = key then (key, val) :: rest else (k, v) :: aSet rest key val

/-- std::map::erase(key). -/
def aErase {α β : Type} [DecidableEq α] : List (α × β) → α → List (α × β)
  | [], _ => []
  | (k, v) :: rest, key =>
      if k = key then aErase rest key else (k, v) :: aErase rest key

/-- Read through std::map::operator[]: if the key is absent a
value-initialised entry `dflt` is inserted first, then returned. -/
def aIndex {α β : Type} [DecidableEq α] (dflt : β) (m : List (α × β)) (key : α) :
    β × List (α × β) :=
  match aFind? m key with
  | some v => (v, m)
  | none => (dflt, m ++ [(key, dflt)])

/-- Per-connection state (class `Connection`, WebSocketServer.cpp):
outbound message buffer, key/value attribute map, permission list, user
name and creation time. -/
structure Connection where
  buffer : List String
  keyValueMap : List (String × String)
  permissions : List String
  user : String
  createTime : Int
deriving DecidableEq

/-- Connection::push_to_buffer: std::list::push_back. -/
def push_to_buffer (c : Connection) (data : String) : Connection :=
  { c with buffer := c.buffer ++ [data] }

/-- Connection::hasPermission: std::find over the permission list. -/
def hasPermission (c : Connection) (permission : String) : Bool :=
  c.permissions.contains permission

/-- The connection built by onConnectWrapper: `new Connection` followed by
`setCreateTime(time(nullptr))`; the clock value is a parameter. -/
def newConnection (now : Int) : Connection :=
  { buffer := [], keyValueMap := [], permissions := [], user := "", createTime := now }

/-- The registry `std::map<int, Connection*> connections`; the mapped type
is a pointer, so a value can be null (`none`). -/
abbrev Registry := List (Int × Option Connection)

/-- WebSocketServer::onConnectWrapper, registry part: `connections[socketID] = c`
with a fresh connection stamped with the current time.  An id already
present is silently overwritten. -/
def onConnectWrapper (regs : Registry) (socketID : Int) (now : Int) : Registry :=
  aSet regs socketID (some (newConnection now))

/-- WebSocketServer::_removeConnection: `connections[socketID]` (operator[],
default-inserting a null pointer when absent), then `erase`, then `delete`
(deleting a null pointer is a no-op). -/
def removeConnection (regs : Registry) (socketID : Int) : Registry :=
  let r := aIndex none regs socketID
  aErase r.2 socketID

/-- WebSocketServer::send: `connections[socketID]->push_to_buffer(data)`.
`connections[socketID]` default-inserts a null pointer when the id is
unknown; the call through it then dereferences null (`none` result). -/
def send (regs : Registry) (socketID : Int) (data : String) : Option Registry :=
  let r := aIndex none regs socketID
  match r.1 with
  | none => none
  | some c => some (aSet r.2 socketID (some (push_to_buffer c data)))

/-- WebSocketServer::broadcast_log: for every registry entry, push the
message onto the connection if it has the "logs" permission.  Calling
hasPermission through a null pointer is a crash (`none`). -/
def broadcast_log : Registry → String → Option Registry
  | [], _ => some []
  | (_, none) :: _, _ => none
  | (id, some c) :: rest, data =>
      match broadcast_log rest data with
      | some rest2 =>
          some ((id, some (if hasPermission c "logs" then push_to_buffer c data else c)) :: rest2)
      | none => none

/-- WebSocketServer::broadcast: send(id, data) for every registry entry;
each send pushes through the stored pointer (crash on null). -/
def broadcast : Registry → String → Option Registry
  | [], _ => some []
  | (_, none) :: _, _ => none
  | (id, some c) :: rest, data =>
      match broadcast rest data with
      | some rest2 => some ((id, some (push_to_buffer c data)) :: rest2)
      | none => none

/-- Connection::operator[] on the attribute map: std::map::operator[]
default-inserts an empty string for an absent key, then returns it. -/
def connIndex (c : Connection) (key : String) : String × Connection :=
  let r := aIndex "" c.keyValueMap key
  (r.1, { c with keyValueMap := r.2 })

/-- WebSocketServer::getValue: `(*connections[socketID])[name]`.  The outer
operator[] default-inserts a null pointer for an unknown id (then crashes);
the inner operator[] default-inserts an empty attribute value. -/
def getValue (regs : Registry) (socketID : Int) (name : String) :
    Option (String × Registry) :=
  let r := aIndex none regs socketID
  match r.1 with
  | none => none
  | some c =>
      let g := connIndex c name
      some (g.1, aSet r.2 socketID (some g.2))

/-- Byte length of a message: `strlen(message.c_str())` for the NUL-free
strings this program builds. -/
def byteLen (s : String) : Nat := s.utf8ByteSize

/-- C++ conversion of a (64-bit or narrower, sign-extended) `int` to
`size_t`: reduction modulo 2^64. -/
def intToSizeT (i : Int) : Nat := (i % (2 ^ 64 : Int)).toNat

/-- The `while (!buffer.empty())` drain of callback_main's
LWS_CALLBACK_SERVER_WRITEABLE case, iterating over the local copy of the
buffer; `oracle k` is `lws_write`'s return value for the k-th write.
The comparison `charsSent < msgLen` is `int` against `size_t`, so
`charsSent` is converted to `size_t` first.  On failure onErrorWrapper
removes the connection from the registry and the loop breaks.  Returns
(messages handed to lws_write, registry afterwards, whether
onErrorWrapper ran). -/
def drainList (oracle : Nat → Int) (fd : Int) :
    List String → Nat → Registry → List String × Registry × Bool
  | [], _, regs => ([], regs, false)
  | m :: rest, k, regs =>
      if intToSizeT (oracle k) < byteLen m then
        ([m], removeConnection regs fd, true)
      else
        let r := drainList oracle fd rest (k + 1) regs
        (m :: r.1, r.2.1, r.2.2)

/-- callback_main, LWS_CALLBACK_SERVER_WRITEABLE:
`auto buffer = webSocketServer->connections[fd]->getBuffer();` —
`connections[fd]` default-inserts a null pointer for an unknown fd (then
crashes, `none`), and `auto` binds a COPY of the `const list<string>&`
returned by getBuffer, so the drain's `pop_front` calls act on that copy
and the connection's own buffer inside the registry is left untouched. -/
def callbackWritable (oracle : Nat → Int) (fd : Int) (regs : Registry) :
    Option (List String × Registry × Bool) :=
  let r := aIndex none regs fd
  match r.1 with
  | none => none
  | some c => some (drainList oracle fd c.buffer 0 r.2)

/-- Transform size: `unsigned int nfft = 512` in wsSpectrogram::run. -/
def nfft : Nat := 512

/-- C++ float-to-int conversion applied in `(int)sp_psd[i]`: truncation
toward zero.  Power values are modelled as rationals. -/
def truncQ (q : ℚ) : Int := q.num.tdiv (q.den : Int)

/-- The serialisation loop of wsSpectrogram::run: starting at bin `i`,
append the truncated power value of each bin below `nfftArg`, with a comma
after every bin except the last (`i < nfft - 1`). -/
def psdLoopAux (psd : List ℚ) (nfftArg : Nat) (i : Nat) (acc : String) : String :=
  if i < nfftArg then
    let acc1 := acc ++ toString (truncQ (psd.getD i 0))
    let acc2 := if i < nfftArg - 1 then acc1 ++ "," else acc1
    psdLoopAux psd nfftArg (i + 1) acc2
  else acc
termination_by nfftArg - i

/-- The spectrum message assembled into m_msgSOCKET by wsSpectrogram::run:
center and span are the stream renderings of m_rxFreq and m_span at call
time. -/
def buildMsg (center span : String) (psd : List ℚ) : String :=
  "\x7b\"center\":[" ++ center ++ "]," ++ "\"span\":[" ++ span ++ "]," ++
    "\"s\":[" ++ psdLoopAux psd nfft 0 "" ++ "]\x7d"

/-- Comma-separated join with no trailing comma (the shape the spec
requires of the "s" list). -/
def sepByComma : List String → String
  | [] => ""
  | [s] => s
  | s :: rest => s ++ "," ++ sepByComma rest

/-- A batch of complex samples (RadioThreadIQData::data), each sample a
(real, imaginary) pair. -/
abbrev Batch := List (ℚ × ℚ)

/-- Producer-side state of wsSpectrogram::run: the bound sample queue, the
m_socketsOn gate flag, the renderings of m_rxFreq / m_span, and the shared
connection registry. -/
structure ProducerState where
  queue : List Batch
  socketsOn : Bool
  rxFreq : String
  span : String
  regs : Registry
deriving DecidableEq

/-- One iteration of the `while(!stopping)` loop of wsSpectrogram::run,
after the reactor poll: pop a batch only when the bound queue holds more
than 5, and when m_socketsOn also compute the spectrum (the external
estimator is the parameter `psdF`), build the message and broadcast it.
Returns (state afterwards, batch popped if any, message broadcast if
any); `none` is the crash of broadcasting through a null pointer. -/
def runIteration (psdF : Batch → List ℚ) (st : ProducerState) :
    Option (ProducerState × Option Batch × Option String) :=
  if 5 < st.queue.length then
    match st.queue with
    | [] => some (st, none, none)
    | b :: rest =>
        let st1 : ProducerState := { st with queue := rest }
        if st1.socketsOn then
          match broadcast st1.regs (buildMsg st1.rxFreq st1.span (psdF b)) with
          | some regs2 =>
              some ({ st1 with regs := regs2 }, some b,
                some (buildMsg st1.rxFreq st1.span (psdF b)))
          | none => none
        else some (st1, some b, none)
  else some (st, none, none)

/-- Connection lifecycle events delivered by the engine. -/
inductive WsEvent
  | connect : Int → WsEvent
  | disconnect : Int → WsEvent
deriving DecidableEq

/-- Effect of one lifecycle event on (registry, m_socketsOn):
LWS_CALLBACK_ESTABLISHED runs onConnectWrapper (registry insert) and the
wsSpectrogram::onConnect handler (`m_socketsOn.store(true)`);
LWS_CALLBACK_CLOSED runs wsSpectrogram::onDisconnect
(`m_socketsOn.store(false)`) and then _removeConnection.  Creation times
are irrelevant here and taken as 0. -/
def applyEvent (st : Registry × Bool) (e : WsEvent) : Registry × Bool :=
  match e with
  | .connect id => (onConnectWrapper st.1 id 0, true)
  | .disconnect id => (removeConnection st.1 id, false)

/-- Run a sequence of lifecycle events from the initial state (empty
registry, `m_socketsOn.store(false)` from the constructor). -/
def runEvents (evs : List WsEvent) : Registry × Bool :=
  evs.foldl applyEvent ([], false)

/-- Whether the last event of a sequence is a connect. -/
def lastIsConnect (evs : List WsEvent) : Bool :=
  match evs.getLast? with
  | some (.connect _) => true
  | _ => false

/-- The value std::string::npos, `(size_t)-1`. -/
def NPOS : Nat := 2 ^ 64 - 1

/-- Scan for ':' from position i, std::string::find_first_of style. -/
def findFirstColonAux : List Char → Nat → Nat
  | [], _ => NPOS
  | c :: rest, i => if c = ':' then i else findFirstColonAux rest (i + 1)

/-- std::string::find_first_of(':'): position of the first ':' (positions
and byte offsets agree for the ASCII command payloads involved), npos when
absent. -/
def findFirstColon (s : String) : Nat :=
  findFirstColonAux s.data 0

/-- Exceptions std::stoi and std::string::substr can throw. -/
inductive MsgError
  | invalidArgument
  | outOfRange
deriving DecidableEq

/-- Whitespace for the default locale's isspace, as skipped by std::stoi. -/
def isSpaceC (c : Char) : Bool :=
  c = ' ' || c = '\t' || c = '\n' || c = '\x0b' || c = '\x0c' || c = '\r'

/-- Value of a string of decimal digits. -/
def digitsVal (ds : List Char) : Nat :=
  ds.foldl (fun a c => 10 * a + (c.toNat - '0'.toNat)) 0

/-- std::stoi: skip leading whitespace, optional sign, then decimal digits;
invalid_argument when no digits follow, out_of_range when the value does
not fit in int (32-bit). -/
def cppStoi (s : String) : Except MsgError Int :=
  let l := s.data.dropWhile isSpaceC
  let p : Int × List Char :=
    match l with
    | '+' :: r => (1, r)
    | '-' :: r => (-1, r)
    | _ => (1, l)
  let ds := p.2.takeWhile Char.isDigit
  if ds.isEmpty then .error .invalidArgument
  else
    let v : Int := p.1 * (digitsVal ds : Int)
    if v < -(2 ^ 31) || 2 ^ 31 - 1 < v then .error .outOfRange else .ok v

/-- std::string::substr(0, count): prefix of length `min count size`. -/
def cppSubstrPrefix (s : String) (count : Nat) : String :=
  ⟨s.data.take count⟩

/-- std::string::substr(pos): suffix from `pos`; throws out_of_range when
`pos > size`. -/
def cppSubstrFrom (s : String) (pos : Nat) : Except MsgError String :=
  if pos ≤ s.data.length then .ok ⟨s.data.drop pos⟩ else .error .outOfRange

/-- wsSpectrogram::onMessage: when `find_first_of(':') > 0`, cmd is the
prefix before that position and par is `stoi` of the suffix starting at
`find_first_of(':') + 1` — a size_t sum, so when the colon is absent the
position is npos and npos + 1 wraps to 0, handing the whole payload to
stoi.  Result is the (cmd, par) pair logged, or the escaping exception. -/
def onMessage (data : String) : Except MsgError (String × Int) :=
  let f := findFirstColon data
  let cmd := if 0 < f then cppSubstrPrefix data f else ""
  if 0 < f then
    match cppSubstrFrom data ((f + 1) % 2 ^ 64) with
    | .ok tail2 =>
        match cppStoi tail2 with
        | .ok par => .ok (cmd, par)
        | .error e => .error e
    | .error e => .error e
  else .ok (cmd, 0)

/-! Sample data used by witnesses. -/

/-- A connection with no permissions, no attributes, empty buffer. -/
def emptyConn : Connection := newConnection 0

/-- A connection whose buffer holds the single message "A". -/
def connA : Connection := { emptyConn with buffer := ["A"] }

/-- A connection with two queued messages. -/
def connAB : Connection := { emptyConn with buffer := ["AA", "BBB"] }

/-- A connection holding the "logs" permission. -/
def connLogs : Connection := { emptyConn with permissions := ["logs"] }

/-- Write oracle for the partial-write witness: the first write is
complete (2 bytes of "AA"), the second is short (1 byte of "BBB"). -/
def drainOracleW : Nat → Int := fun j => if j = 0 then 2 else 1

/-- Producer state with a 6-deep sample queue, the gate flag on and one
live connection. -/
def stDeep : ProducerState :=
  { queue := [[(1, 1)], [], [], [], [], []], socketsOn := true,
    rxFreq := "100", span := "20", regs := [(1, some (newConnection 0))] }

/-! Association-list lemmas. -/

lemma aFind?_aSet_self {α β : Type} [DecidableEq α] (m : List (α × β)) (k : α) (v : β) :
    aFind? (aSet m k v) k = some v := by
  induction m with
  | nil => simp [aSet, aFind?]
  | cons p rest ih =>
      by_cases h : p.1 = k
      · simp [aSet, h, aFind?]
      · simp [aSet, h, aFind?, ih]

lemma aFind?_aErase_self {α β : Type} [DecidableEq α] (m : List (α × β)) (k : α) :
    aFind? (aErase m k) k = none := by
  induction m with
  | nil => simp [aErase, aFind?]
  | cons p rest ih =>
      by_cases h : p.1 = k
      · simp [aErase, h, ih]
      · simp [aErase, h, aFind?, ih]

lemma aErase_of_not_found {α β : Type} [DecidableEq α] (m : List (α × β)) (k : α)
    (h : aFind? m k = none) : aErase m k = m := by
  induction m with
  | nil => simp [aErase]
  | cons p rest ih =>
      by_cases hp : p.1 = k
      · simp [aFind?, hp] at h
      · simp [aFind?, hp] at h
        simp [aErase, hp, ih h]

lemma aErase_append {α β : Type} [DecidableEq α] (m1 m2 : List (α × β)) (k : α) :
    aErase (m1 ++ m2) k = aErase m1 k ++ aErase m2 k := by
  induction m1 with
  | nil => simp [aErase]
  | cons p rest ih =>
      by_cases hp : p.1 = k <;> simp [aErase, hp, ih]

lemma hasPermission_eq_mem (c : Connection) (p : String) :
    hasPermission c p = decide (p ∈ c.permissions) := by
  by_cases h : p ∈ c.permissions <;> simp [hasPermission, List.contains, List.elem_iff, h]

/-- Claim C2.  The spec says `send(id, data)` on an id absent from the
registry is a harmless no-op.  The code instead default-inserts a null
`Connection*` for the id and immediately calls push_to_buffer through it:
a null-pointer dereference, modelled as the `none` (crash) result.  Shown
at the spec's own scenario input, send(7, "C") after connection 7 is
gone, both on an empty registry and next to a live connection. -/
theorem send_unknown_id_crashes :
    send [] 7 "C" = none ∧ send [(1, some emptyConn)] 7 "C" = none := by decide

/-- Claim C4, counterexample.  register on a present id does not fail with
DuplicateConnection: it overwrites (the second register of id 1 replaces
the first connection, createTime 0, by a fresh one, createTime 5).
unregister on an absent id does not fail with UnknownConnection: it
returns with the registry unchanged. -/
theorem register_overwrites_unregister_noop_cex :
    onConnectWrapper (onConnectWrapper [] 1 0) 1 5 = [(1, some (newConnection 5))]
    ∧ removeConnection [] 7 = [] := by decide

/-- Claim C4, amended.  register(id) always succeeds and leaves id mapped
to the freshly created connection, overwriting any connection already
registered under id; unregister(id) on an absent id always succeeds and
leaves the registry unchanged (it default-inserts a null entry and erases
it again).  Neither operation has a failure result. -/
theorem register_overwrites_unregister_noop :
    (∀ (regs : Registry) (id now : Int),
        aFind? (onConnectWrapper regs id now) id = some (some (newConnection now)))
    ∧ (∀ (regs : Registry) (id : Int),
        aFind? regs id = none → removeConnection regs id = regs) := by
  constructor
  · intro regs id now
    exact aFind?_aSet_self regs id (some (newConnection now))
  · intro regs id habs
    show aErase (aIndex none regs id).2 id = regs
    simp only [aIndex, habs]
    rw [aErase_append, aErase_of_not_found regs id habs]
    simp [aErase]

/-- Witness for the amended C4 statement: re-register of the already
present id 1 (overwrite), unregister of the absent id 7 (no-op). -/
theorem register_overwrites_unregister_noop_witness :
    aFind? (onConnectWrapper [(1, some emptyConn)] 1 5) 1 = some (some (newConnection 5))
    ∧ removeConnection [(3, some emptyConn)] 7 = [(3, some emptyConn)] :=
  ⟨register_overwrites_unregister_noop.1 [(1, some emptyConn)] 1 5,
    register_overwrites_unregister_noop.2 [(3, some emptyConn)] 7 (by decide)⟩

/-- Claim C5, counterexample.  After connect 1, connect 2, disconnect 1
the registry still holds connection 2, but the m_socketsOn gate flag is
false: the flag is not "true iff at least one connection is attached",
because onDisconnect stores false unconditionally instead of checking the
remaining connections. -/
theorem gate_flag_cex :
    (runEvents [.connect 1, .connect 2, .disconnect 1]).2 = false
    ∧ (runEvents [.connect 1, .connect 2, .disconnect 1]).1 = [(2, some (newConnection 0))] := by
  decide

lemma runEvents_aux (e : WsEvent) (evs : List WsEvent) (st : Registry × Bool) :
    ((e :: evs).foldl applyEvent st).2 = lastIsConnect (e :: evs) := by
  induction evs generalizing e st with
  | nil => cases e <;> simp [applyEvent, lastIsConnect]
  | cons e2 rest ih =>
      show ((e2 :: rest).foldl applyEvent (applyEvent st e)).2 = _
      rw [ih e2 (applyEvent st e)]
      cases e <;> rfl

/-- Claim C5, amended.  After any sequence of onConnect/onDisconnect
events the shared gate flag equals "the most recent event was a connect":
it is false after any disconnect, even when other connections remain
attached, and it is not the claimed "at least one connection attached"
predicate. -/
theorem gate_flag_tracks_last_event (evs : List WsEvent) :
    (runEvents evs).2 = lastIsConnect evs := by
  cases evs with
  | nil => rfl
  | cons e rest => exact runEvents_aux e rest ([], false)

/-- Claim C9.  For a live connection and a key absent from its attribute
map, getValue returns the empty string and also inserts the key with an
empty value into the connection's attribute store: the get is not a pure
read. -/
theorem getValue_absent_key_inserts (regs : Registry) (id : Int) (name : String)
    (c : Connection) (hc : aFind? regs id = some (some c))
    (habs : aFind? c.keyValueMap name = none) :
    getValue regs id name
      = some ("", aSet regs id (some { c with keyValueMap := c.keyValueMap ++ [(name, "")] })) := by
  simp only [getValue, connIndex, aIndex, hc, habs]

/-- Witness for C9 at a concrete live connection and absent key. -/
theorem getValue_absent_key_inserts_witness :
    getValue [(1, some emptyConn)] 1 "k"
      = some ("", aSet [(1, some emptyConn)] 1
          (some { emptyConn with keyValueMap := emptyConn.keyValueMap ++ [("k", "")] })) :=
  getValue_absent_key_inserts [(1, some emptyConn)] 1 "k" emptyConn (by decide) (by decide)

/-- Claim C1.  A writable event on connection 1, whose queue holds "A",
with every write fully successful (the oracle returns 1 byte for the
1-byte message): the message is handed to the transport and no error is
raised, but the registry afterwards is unchanged — connection 1's outbound
queue still holds "A" instead of being empty, because the drain pops only
the local copy that `auto buffer = ...getBuffer()` made of the queue. -/
theorem drain_pops_only_a_copy :
    callbackWritable (fun _ => 1) 1 [(1, some connA)] = some (["A"], [(1, some connA)], false)
    ∧ connA.buffer = ["A"] := by decide

lemma intToSizeT_full (L : Nat) (hL : L < 2 ^ 64) : ¬ intToSizeT (L : Int) < L := by
  unfold intToSizeT
  omega

lemma intToSizeT_partial (a : Int) (L : Nat) (h0 : 0 ≤ a) (hL : a < (L : Int)) :
    intToSizeT a < L := by
  unfold intToSizeT
  omega

lemma drainList_fail (oracle : Nat → Int) (fd : Int) :
    ∀ (msgs : List String) (k0 k : Nat) (regs : Registry),
      k < msgs.length →
      (∀ j, j < k → ¬ intToSizeT (oracle (k0 + j)) < byteLen (msgs.getD j "")) →
      intToSizeT (oracle (k0 + k)) < byteLen (msgs.getD k "") →
      drainList oracle fd msgs k0 regs = (msgs.take (k + 1), removeConnection regs fd, true) := by
  intro msgs
  induction msgs with
  | nil =>
      intro k0 k regs hk
      exact absurd hk (by simp)
  | cons m rest ih =>
      intro k0 k regs hk hsucc hfail
      cases k with
      | zero =>
          have hf : intToSizeT (oracle k0) < byteLen m := by simpa using hfail
          simp [drainList, hf]
      | succ kk =>
          have hs0 : ¬ intToSizeT (oracle k0) < byteLen m := by
            simpa using hsucc 0 (Nat.succ_pos kk)
          have hrec := ih (k0 + 1) kk regs (by simpa using Nat.lt_of_succ_lt_succ hk)
            (by intro j hj
                have h1 := hsucc (j + 1) (by omega)
                have e : k0 + (j + 1) = k0 + 1 + j := by omega
                rw [e] at h1
                simpa only [List.getD_cons_succ] using h1)
            (by have e : k0 + (kk + 1) = k0 + 1 + kk := by omega
                rw [e] at hfail
                simpa only [List.getD_cons_succ] using hfail)
          simp [drainList, hs0, hrec]

/-- Claim C3.  During a drain, if the first k writes are complete and the
(k+1)-th transmits a nonnegative byte count smaller than the message's
length, then onErrorWrapper runs (error true), the connection is erased
from the registry, and no message after index k is handed to the
transport: the loop breaks at the failing message instead of continuing
to pop. -/
theorem partial_write_removes_connection (oracle : Nat → Int) (fd : Int) (regs : Registry)
    (c : Connection) (k : Nat)
    (hc : aFind? regs fd = some (some c))
    (hk : k < c.buffer.length)
    (hsucc : ∀ j, j < k → oracle j = (byteLen (c.buffer.getD j "") : Int)
        ∧ byteLen (c.buffer.getD j "") < 2 ^ 64)
    (hfail : 0 ≤ oracle k ∧ oracle k < (byteLen (c.buffer.getD k "") : Int)) :
    callbackWritable oracle fd regs = some (c.buffer.take (k + 1), aErase regs fd, true)
    ∧ aFind? (aErase regs fd) fd = none := by
  have hrem : removeConnection regs fd = aErase regs fd := by
    simp only [removeConnection, aIndex, hc]
  constructor
  · simp only [callbackWritable, aIndex, hc]
    rw [drainList_fail oracle fd c.buffer 0 k regs hk
      (by intro j hj
          have h1 := (hsucc j hj).1
          have h2 := (hsucc j hj).2
          simpa [h1] using intToSizeT_full _ h2)
      (by simpa using intToSizeT_partial (oracle k) _ hfail.1 hfail.2)]
    rw [hrem]
  · exact aFind?_aErase_self regs fd

/-- Witness for C3: buffer ["AA", "BBB"], first write complete (2 bytes),
second write short (1 byte of 3). -/
theorem partial_write_removes_connection_witness :
    callbackWritable drainOracleW 5 [(5, some connAB)]
      = some (connAB.buffer.take (1 + 1), aErase [(5, some connAB)] 5, true)
    ∧ aFind? (aErase [(5, some connAB)] 5) 5 = none :=
  partial_write_removes_connection drainOracleW 5 [(5, some connAB)] connAB 1
    (by decide) (by decide)
    (by intro j hj
        have hj0 : j = 0 := by omega
        subst hj0
        exact ⟨by decide, by decide⟩)
    ⟨by decide, by decide⟩

/-- Claim C8.  broadcast_log appends the message to exactly the live
connections whose permission list contains "logs"; every other connection
is left entirely unchanged, and no registry entries appear or vanish. -/
theorem broadcast_log_filters_by_permission (regs : Registry) (m : String)
    (hlive : ∀ p ∈ regs, p.2.isSome) :
    ∃ regs2, broadcast_log regs m = some regs2
      ∧ (∀ id c, aFind? regs id = some (some c) →
          aFind? regs2 id = some (some (if "logs" ∈ c.permissions then push_to_buffer c m else c)))
      ∧ (∀ id, aFind? regs id = none → aFind? regs2 id = none) := by
  induction regs with
  | nil =>
      refine ⟨[], rfl, ?_, ?_⟩
      · intro id c h
        simp [aFind?] at h
      · intro id h
        simp [aFind?]
  | cons p rest ih =>
      obtain ⟨id0, p0⟩ := p
      have hp0 : p0.isSome := hlive (id0, p0) (by simp)
      obtain ⟨c0, rfl⟩ : ∃ c0, p0 = some c0 := by
        cases p0
        · simp at hp0
        · exact ⟨_, rfl⟩
      obtain ⟨rest2, hbl, hsome, hnone⟩ := ih (fun q hq => hlive q (by simp [hq]))
      refine ⟨(id0, some (if hasPermission c0 "logs" then push_to_buffer c0 m else c0)) :: rest2,
        ?_, ?_, ?_⟩
      · simp [broadcast_log, hbl]
      · intro id c hfind
        by_cases h : id0 = id
        · subst h
          have hcc : c0 = c := by simpa [aFind?] using hfind
          subst hcc
          simp [aFind?, hasPermission_eq_mem]
        · simp only [aFind?, if_neg h] at hfind ⊢
          exact hsome id c hfind
      · intro id hfind
        by_cases h : id0 = id
        · subst h
          simp [aFind?] at hfind
        · simp only [aFind?, if_neg h] at hfind ⊢
          exact hnone id hfind

/-- Witness for C8: one connection with the "logs" permission, one with
an empty permission set. -/
theorem broadcast_log_filters_by_permission_witness :
    ∃ regs2, broadcast_log [(1, some connLogs), (2, some emptyConn)] "m" = some regs2
      ∧ (∀ id c, aFind? [(1, some connLogs), (2, some emptyConn)] id = some (some c) →
          aFind? regs2 id
            = some (some (if "logs" ∈ c.permissions then push_to_buffer c "m" else c)))
      ∧ (∀ id, aFind? [(1, some connLogs), (2, some emptyConn)] id = none →
          aFind? regs2 id = none) :=
  broadcast_log_filters_by_permission [(1, some connLogs), (2, some emptyConn)] "m" (by decide)

lemma broadcast_total (regs : Registry) (m : String) (hlive : ∀ p ∈ regs, p.2.isSome) :
    ∃ regs2, broadcast regs m = some regs2 := by
  induction regs with
  | nil => exact ⟨[], rfl⟩
  | cons p rest ih =>
      obtain ⟨id0, p0⟩ := p
      have hp0 : p0.isSome := hlive (id0, p0) (by simp)
      obtain ⟨c0, rfl⟩ : ∃ c0, p0 = some c0 := by
        cases p0
        · simp at hp0
        · exact ⟨_, rfl⟩
      obtain ⟨rest2, h2⟩ := ih (fun q hq => hlive q (by simp [hq]))
      refine ⟨(id0, some (push_to_buffer c0 m)) :: rest2, ?_⟩
      simp [broadcast, h2]

/-- Claim C7.  In one producer-loop iteration: with bound-queue depth at
most 5, nothing is popped, nothing is broadcast and the state is
untouched; with depth above 5, exactly the front batch is popped. -/
theorem backpressure_gate (psdF : Batch → List ℚ) (st : ProducerState)
    (hlive : ∀ p ∈ st.regs, p.2.isSome) :
    (st.queue.length ≤ 5 → runIteration psdF st = some (st, none, none))
    ∧ (5 < st.queue.length →
        ∃ st2 msg2, runIteration psdF st = some (st2, st.queue.head?, msg2)
          ∧ st2.queue = st.queue.tail) := by
  constructor
  · intro h
    have hno : ¬ 5 < st.queue.length := by omega
    simp [runIteration, hno]
  · intro h
    obtain ⟨b, rest, hq⟩ : ∃ b rest, st.queue = b :: rest := by
      cases hq : st.queue with
      | nil => rw [hq] at h; simp at h
      | cons b rest => exact ⟨b, rest, rfl⟩
    rw [hq] at h
    have h4 : 4 < rest.length := by
      simp only [List.length_cons] at h
      omega
    by_cases hs : st.socketsOn
    · obtain ⟨regs2, hb⟩ := broadcast_total st.regs (buildMsg st.rxFreq st.span (psdF b)) hlive
      refine ⟨{ st with queue := rest, regs := regs2 },
        some (buildMsg st.rxFreq st.span (psdF b)), ?_, by simp [hq]⟩
      simp [runIteration, hq, h, h4, hs, hb]
    · refine ⟨{ st with queue := rest }, none, ?_, by simp [hq]⟩
      simp [runIteration, hq, h, h4, hs]

/-- Witness for C7: with a 6-deep queue the deep branch applies and the
front batch is popped. -/
theorem backpressure_gate_witness :
    (stDeep.queue.length ≤ 5 → runIteration (fun _ => [3]) stDeep = some (stDeep, none, none))
    ∧ (5 < stDeep.queue.length →
        ∃ st2 msg2, runIteration (fun _ => [3]) stDeep = some (st2, stDeep.queue.head?, msg2)
          ∧ st2.queue = stDeep.queue.tail) :=
  backpressure_gate (fun _ => [3]) stDeep (by decide)

lemma findFirstColonAux_none : ∀ (l : List Char) (i : Nat), ':' ∉ l →
    findFirstColonAux l i = NPOS := by
  intro l
  induction l with
  | nil => intro i _; rfl
  | cons c rest ih =>
      intro i hno
      have hc : ¬ c = ':' := by
        intro hc
        exact hno (hc ▸ List.mem_cons_self c rest)
      simp only [findFirstColonAux, if_neg hc]
      exact ih (i + 1) (fun hm => hno (List.mem_cons_of_mem c hm))

/-- Claim C10.  onMessage is not total: for every payload without a ':'
find_first_of returns npos, which is greater than 0, so the parse branch
runs and (because npos + 1 wraps to 0 in size_t) stoi is applied to the
whole payload; on the payload "hello" that stoi call throws
invalid_argument, which onMessage does not handle. -/
theorem onMessage_no_colon_unhandled :
    (∀ s : String, ':' ∉ s.data → s.data.length ≤ NPOS →
        findFirstColon s = NPOS
        ∧ onMessage s = (cppStoi s).map (fun par => (s, par)))
    ∧ 0 < NPOS
    ∧ onMessage "hello" = Except.error MsgError.invalidArgument := by
  refine ⟨?_, by decide, by rfl⟩
  intro s hno hlen
  have hf : findFirstColon s = NPOS := findFirstColonAux_none s.data 0 hno
  refine ⟨hf, ?_⟩
  unfold onMessage
  rw [hf]
  have h0 : (0 : Nat) < NPOS := by decide
  have hprefix : cppSubstrPrefix s NPOS = s := by
    unfold cppSubstrPrefix
    rw [List.take_of_length_le hlen]
  have hmod : (NPOS + 1) % 2 ^ 64 = 0 := by decide
  have hfrom : cppSubstrFrom s 0 = Except.ok s := by
    unfold cppSubstrFrom
    simp
  simp only [h0, if_true, ite_true, hprefix, hmod, hfrom]
  cases hst : cppStoi s <;> simp [hst, Except.map]

/-- Witness for C10 at the payload "hello". -/
theorem onMessage_no_colon_unhandled_witness :
    findFirstColon "hello" = NPOS
    ∧ onMessage "hello" = (cppStoi "hello").map (fun par => ("hello", par)) :=
  onMessage_no_colon_unhandled.1 "hello" (by decide) (by decide)

lemma sepByComma_cons_cons (s r : String) (t : List String) :
    sepByComma (s :: r :: t) = s ++ "," ++ sepByComma (r :: t) := rfl

lemma psdLoopAux_sep (psd : List ℚ) (n : Nat) (hn : psd.length = n) :
    ∀ (fuel i : Nat) (acc : String), n - i = fuel →
      psdLoopAux psd n i acc
        = acc ++ sepByComma ((psd.drop i).map (fun q => toString (truncQ q))) := by
  intro fuel
  induction fuel with
  | zero =>
      intro i acc hfi
      have hin : ¬ i < n := by omega
      rw [psdLoopAux]
      rw [List.drop_eq_nil_of_le (by omega)]
      simp [hin, sepByComma, String.append_empty]
  | succ fuel ih =>
      intro i acc hfi
      have hin : i < n := by omega
      have hlen : i < psd.length := by omega
      rw [psdLoopAux, if_pos hin]
      rw [List.drop_eq_getElem_cons hlen, List.getD_eq_getElem psd 0 hlen]
      by_cases hlast : i < n - 1
      · have hlen1 : i + 1 < psd.length := by omega
        simp only [hlast, ite_true, if_true]
        rw [ih (i + 1) (acc ++ toString (truncQ psd[i]) ++ ",") (by omega)]
        cases he : psd.drop (i + 1) with
        | nil =>
            have h0 := congrArg List.length he
            simp only [List.length_drop, List.length_nil] at h0
            omega
        | cons y t =>
            simp only [List.map_cons, sepByComma_cons_cons]
            simp [String.append_assoc]
      · have hend : psd.drop (i + 1) = [] := List.drop_eq_nil_of_le (by omega)
        simp only [hlast, ite_false, if_false]
        rw [ih (i + 1) (acc ++ toString (truncQ psd[i])) (by omega), hend]
        simp [sepByComma, String.append_empty]

/-- Claim C6.  For transform size 512, the emitted spectrum message is
exactly the serialisation
center-prefix ++ center ++ span-part ++ span ++ s-part with the "s" list
the comma-separated join (no trailing comma) of the 512 power values each
converted to an integer by truncation toward zero (7/2 serialises as 3
and -7/2 as -3, not the rounded values), in bin order, with center and
span the values passed at call time. -/
theorem spectrum_message_format (center span : String) (psd : List ℚ) (h : psd.length = nfft) :
    buildMsg center span psd
      = "\x7b\"center\":[" ++ center ++ "]," ++ "\"span\":[" ++ span ++ "]," ++ "\"s\":["
        ++ sepByComma (psd.map (fun q => toString (truncQ q))) ++ "]\x7d"
    ∧ (psd.map (fun q => toString (truncQ q))).length = 512
    ∧ truncQ (7 / 2) = 3 ∧ truncQ (-7 / 2) = -3 := by
  refine ⟨?_, ?_, ?_, ?_⟩
  · unfold buildMsg
    rw [psdLoopAux_sep psd nfft h nfft 0 "" (by omega)]
    simp [String.empty_append]
  · simp only [List.length_map, h, nfft]
  · norm_num [truncQ]
    decide
  · norm_num [truncQ]
    decide

/-- Witness for C6 on a concrete 512-bin power vector. -/
theorem spectrum_message_format_witness :
    buildMsg "100" "20" (List.replicate 512 3)
      = "\x7b\"center\":[" ++ "100" ++ "]," ++ "\"span\":[" ++ "20" ++ "]," ++ "\"s\":["
        ++ sepByComma ((List.replicate 512 (3 : ℚ)).map (fun q => toString (truncQ q))) ++ "]\x7d"
    ∧ ((List.replicate 512 (3 : ℚ)).map (fun q => toString (truncQ q))).length = 512
    ∧ truncQ (7 / 2) = 3 ∧ truncQ (-7 / 2) = -3 :=
  spectrum_message_format "100" "20" (List.replicate 512 3)
    (by simp only [List.length_replicate, nfft])

end WS
